import Mathlib

/-!
Verification development for the gen-matching and decay-labeling core of the
`boostedhiggs` repository (`boostedhiggs/utils.py`).

Shallow embedding conventions:
* Event batches are `List Event`; every awkward-array operation used by the
  source acts eventwise (all reductions are `axis=1`/`axis=2` within one
  event), so batch columns are `List.map` over events.
* Kinematic quantities are exact rationals.  The source compares
  `sqrt(deta^2 + dphi^2) < 0.8` and takes `argmin` of such square roots; since
  `sqrt` is strictly monotone on nonnegatives, the model works with the squared
  separation throughout (`deltaR2 < 0.8^2`, `argmin` of `deltaR2`).  The
  azimuthal difference is taken directly; the source wraps it into the interval
  from -pi to pi, which is the identity on the configurations considered here.
* `np.float64` special values (NaN, infinities) matter only in
  `get_neutrino_z`; they are modelled by the `EF` type below (exact-rational
  idealization of IEEE semantics: rounding and overflow of ordinary arithmetic
  are not modelled, special-value propagation is).
-/

/-- PDG identity code constants from the source header. -/
def b_PDGID : Nat := 5

def c_PDGID : Nat := 4

def g_PDGID : Nat := 21

def TOP_PDGID : Nat := 6

def ELE_PDGID : Nat := 11

def vELE_PDGID : Nat := 12

def MU_PDGID : Nat := 13

def vMU_PDGID : Nat := 14

def TAU_PDGID : Nat := 15

def vTAU_PDGID : Nat := 16

def Z_PDGID : Nat := 23

def W_PDGID : Nat := 24

def HIGGS_PDGID : Nat := 25

def PI_PDGID : Nat := 211

def PO_PDGID : Nat := 221

def PP_PDGID : Nat := 111

/-- Fill value used by the source for missing entries. -/
def FILL_NONE_VALUE : ℚ := -99999

/-- Fixed-radius association cut (the source's `JET_DR = 0.8`). -/
def JET_DR : ℚ := 4/5

/-- Squared association cut, against which the squared separations are
compared. -/
def jetDR2 : ℚ := JET_DR * JET_DR

/-- Generator particle: identity code, kinematics, the two status flags the
source reads (`fromHardProcess`, `isLastCopy`) and the decay tree.  The
parent/child navigation of the source's NanoAOD view is modelled by owning the
children directly; `distinctParent` information is recovered during traversal
(see `dcdP`). -/
inductive GenPart : Type where
  | mk : (pdgId : Int) → (pt eta phi mass : ℚ) →
      (fromHardProcess isLastCopy : Bool) → (children : List GenPart) → GenPart

def GenPart.pdgId : GenPart → Int
  | .mk i _ _ _ _ _ _ _ => i

def GenPart.pt : GenPart → ℚ
  | .mk _ p _ _ _ _ _ _ => p

def GenPart.eta : GenPart → ℚ
  | .mk _ _ e _ _ _ _ _ => e

def GenPart.phi : GenPart → ℚ
  | .mk _ _ _ f _ _ _ _ => f

def GenPart.mass : GenPart → ℚ
  | .mk _ _ _ _ m _ _ _ => m

def GenPart.fromHardProcess : GenPart → Bool
  | .mk _ _ _ _ _ h _ _ => h

def GenPart.isLastCopy : GenPart → Bool
  | .mk _ _ _ _ _ _ l _ => l

def GenPart.children : GenPart → List GenPart
  | .mk _ _ _ _ _ _ _ c => c

/-- Reconstructed large-radius jet: direction, the flavor-tagging counters used
by the QCD classifier, and the mass of the externally pre-associated gen jet
(`fatjets.matched_gen.mass`, consumed as-is by the dispatcher). -/
structure Jet where
  pt : ℚ
  eta : ℚ
  phi : ℚ
  mass : ℚ
  nBHadrons : Nat
  nCHadrons : Nat
  matchedGenMass : ℚ

/-- One event: its gen-particle collection and the single candidate fat jet
(the source assumes exactly one fat jet per event under consideration). -/
structure Event where
  genparts : List GenPart
  fatjet : Jet

/-- Squared angular separation between the jet axis and a particle.  The source
computes `sqrt(deta^2 + dphi^2)`; every use is either a comparison against a
nonnegative threshold or an argmin, both invariant under squaring. -/
def deltaR2 (j : Jet) (p : GenPart) : ℚ :=
  (j.eta - p.eta) * (j.eta - p.eta) + (j.phi - p.phi) * (j.phi - p.phi)

/-- Squared angular separation between two particles. -/
def deltaR2pp (a b : GenPart) : ℚ :=
  (a.eta - b.eta) * (a.eta - b.eta) + (a.phi - b.phi) * (a.phi - b.phi)

/-- The source's `get_pid_mask(genparts, pdgids, byall=False)` for a list of
codes: true iff `abs(pdgId)` equals one of the listed codes. -/
def getPidMask (pdgids : List Nat) (p : GenPart) : Bool :=
  pdgids.any (fun q => p.pdgId.natAbs == q)

/-- `genparts.hasFlags(["fromHardProcess", "isLastCopy"])`. -/
def hasGenFlags (p : GenPart) : Bool :=
  p.fromHardProcess && p.isLastCopy

/-- First element attaining the minimum of `f`, as numpy's `argmin` (first
index on ties); `none` on the empty list, as awkward's `argmin(..., axis=1,
keepdims=True)` yields `None` there. -/
def argminFirst {α : Type} (f : α → ℚ) : List α → Option α
  | [] => none
  | a :: as =>
    match argminFirst f as with
    | none => some a
    | some b => if f a ≤ f b then some a else some b

/-- First element attaining the maximum of `f`, as numpy's `argmax`. -/
def argmaxFirst {α : Type} (f : α → ℚ) : List α → Option α
  | [] => none
  | a :: as =>
    match argmaxFirst f as with
    | none => some a
    | some b => if f b ≤ f a then some a else some b

theorem argminFirst_eq_none {α : Type} {f : α → ℚ} {l : List α} :
    argminFirst f l = none ↔ l = [] := by
  cases l with
  | nil => simp [argminFirst]
  | cons x xs =>
    constructor
    · intro h
      rcases hxs : argminFirst f xs with _ | b
      · simp [argminFirst, hxs] at h
      · simp only [argminFirst, hxs] at h
        by_cases hle : f x ≤ f b <;> simp [hle] at h
    · intro h
      simp at h

theorem argminFirst_mem {α : Type} {f : α → ℚ} {l : List α} {a : α}
    (h : argminFirst f l = some a) : a ∈ l := by
  induction l generalizing a with
  | nil => simp [argminFirst] at h
  | cons x xs ih =>
    rcases hxs : argminFirst f xs with _ | b <;>
      simp only [argminFirst, hxs] at h
    · injection h with h
      simp [h]
    · by_cases hle : f x ≤ f b
      · rw [if_pos hle] at h
        injection h with h
        simp [h]
      · rw [if_neg hle] at h
        injection h with h
        exact List.mem_cons_of_mem _ (ih (h ▸ hxs))

theorem argminFirst_le {α : Type} {f : α → ℚ} {l : List α} {a : α}
    (h : argminFirst f l = some a) : ∀ b ∈ l, f a ≤ f b := by
  induction l generalizing a with
  | nil => simp [argminFirst] at h
  | cons x xs ih =>
    intro b hb
    rcases hxs : argminFirst f xs with _ | m <;>
      simp only [argminFirst, hxs] at h
    · have hnil : xs = [] := argminFirst_eq_none.mp hxs
      subst hnil
      injection h with h
      subst h
      rcases List.mem_cons.mp hb with rfl | hmem
      · exact le_refl _
      · simp at hmem
    · by_cases hle : f x ≤ f m
      · rw [if_pos hle] at h
        injection h with h
        subst h
        rcases List.mem_cons.mp hb with rfl | hmem
        · exact le_refl _
        · exact le_trans hle (ih hxs _ hmem)
      · rw [if_neg hle] at h
        injection h with h
        subst h
        rcases List.mem_cons.mp hb with rfl | hmem
        · exact le_of_not_le hle
        · exact ih hxs _ hmem

theorem argminFirst_isSome {α : Type} (f : α → ℚ) (x : α) (xs : List α) :
    ∃ a, argminFirst f (x :: xs) = some a := by
  simp only [argminFirst]
  rcases argminFirst f xs with _ | b
  · exact ⟨x, rfl⟩
  · by_cases hle : f x ≤ f b
    · exact ⟨x, by simp [hle]⟩
    · exact ⟨b, by simp [hle]⟩

/-! Coffea's `distinctChildrenDeep` paired with each collected particle's
`distinctParent` mass.  The traversal skips same-`pdgId` copies of the parent
(walking down the copy chain to the last copy) and collects every child with a
different `pdgId`; for such a child the nearest ancestor with a different
`pdgId` — coffea's `distinctParent` — is exactly the node whose child list it
was collected from, so its mass is recorded alongside.  On trees without
same-`pdgId` copies (all events considered in this development) the collected
list is just `children`. -/
mutual

/-- See the comment above: `distinctChildrenDeep` with `distinctParent`
masses. -/
def dcdP : GenPart → List (GenPart × ℚ)
  | .mk pid _ _ _ m _ _ ch => dcdPList pid m ch

/-- Helper of `dcdP` over a child list: `pid` and `pm` are the parent's
identity code and mass. -/
def dcdPList (pid : Int) (pm : ℚ) : List GenPart → List (GenPart × ℚ)
  | [] => []
  | c :: cs => (if c.pdgId = pid then dcdP c else [(c, pm)]) ++ dcdPList pid pm cs

end

/-- Coffea's `distinctChildren` / `distinctChildrenDeep`: children reached by
skipping through same-`pdgId` copies.  The two coffea accessors differ only in
how radiative same-particle chains below a distinct child are followed; on the
copy-free trees of this development both coincide with `children`, and the
model uses the single copy-skipping traversal for both. -/
def distinctChildren (p : GenPart) : List GenPart :=
  (dcdP p).map Prod.fst

/-- Convert a boolean flag column entry to an integer label, as the source's
`to_label` (`ak.values_astype(array, np.int32)`). -/
def toLabel (b : Bool) : Int :=
  if b then 1 else 0

/-- One scalar cell of an output column.  The source's columns hold float,
int, bool, possibly-missing, or jagged values per event. -/
inductive EVal : Type where
  | q : ℚ → EVal
  | i : Int → EVal
  | b : Bool → EVal
  | oq : Option ℚ → EVal
  | ob : Option Bool → EVal
  | lq : List ℚ → EVal
deriving DecidableEq

/-!  `match_H` (Higgs classifier), W branch (`dau_pdgid == W_PDGID`, the
default).  The source's `match_H` takes a third positional parameter `lepton`
with no default; it is referenced only in commented-out code, so the model
omits it — but note that `tagger_gen_matching` calls `match_H(genparts,
fatjets)` with just two arguments, which raises `TypeError` in Python (claim
C1).  All definitions below are per event; batch columns map them over the
event list. -/

/-- Line 74: Higgs candidates, `|pdgId| == 25` with both gen flags. -/
def higgsSel (e : Event) : List GenPart :=
  e.genparts.filter fun p => getPidMask [HIGGS_PDGID] p && hasGenFlags p

/-- Line 78: `higgs[ak.argmin(fatjet.delta_r(higgs), axis=1, keepdims=True)]`
followed by line 81 `ak.firsts`: the ΔR-closest Higgs candidate, `none` when
the event has no candidate (awkward yields `None` there). -/
def matchedHiggs (e : Event) : Option GenPart :=
  argminFirst (deltaR2 e.fatjet) (higgsSel e)

/-- Line 79: `ak.any(fatjet.delta_r(matched_higgs) < 0.8, axis=1)` — the mask
returned by `match_H`.  Only the Higgs–jet separation enters; decay daughters
are not consulted (claim C2).  `ak.any` over the `[None]` of an empty event is
false. -/
def matchedHiggsMask (e : Event) : Bool :=
  (matchedHiggs e).elim false fun h => decide (deltaR2 e.fatjet h < jetDR2)

/-- Line 86: `ak.fill_none(higgs.pt, FILL_NONE_VALUE)`.  `higgs.pt` is the
per-event list of ALL selected Higgs pts; it contains no missing entries, so
the `fill_none` is a no-op and an event without candidates yields the empty
list, never `FILL_NONE_VALUE` (claims C4 and C9). -/
def fjGenHpt (e : Event) : List ℚ :=
  (higgsSel e).map GenPart.pt

/-- Line 83: children of the matched Higgs.  For an event without candidates
the source would go on to raise at line 99 (`higgs[:, 0]` on an empty list);
the model returns the empty list for the intermediate quantities. -/
def mhChildren (e : Event) : List GenPart :=
  (matchedHiggs e).elim [] GenPart.children

/-- Line 90: `is_hww_matched = ak.any(children_mask, axis=1)` — at least one
child of the matched Higgs is a W.  This is the value stored in
`fj_H_VV_isMatched`; it does not depend on the jet position. -/
def isHwwMatched (e : Event) : Bool :=
  (mhChildren e).any fun c => getPidMask [W_PDGID] c

/-- Line 93: the matched Higgs's W children. -/
def wChildren (e : Event) : List GenPart :=
  (mhChildren e).filter fun c => getPidMask [W_PDGID] c

/-- Line 95: the lower-mass W child (off-shell V*), first on ties. -/
def vStarSel (e : Event) : Option GenPart :=
  argminFirst GenPart.mass (wChildren e)

/-- Line 96: the higher-mass W child (on-shell V), first on ties. -/
def vSel (e : Event) : Option GenPart :=
  argmaxFirst GenPart.mass (wChildren e)

/-- Lines 107-109: `higgs_children.distinctChildrenDeep` flattened twice at
`axis=2`: the per-event flat list of all deep daughters of all children of ALL
selected Higgs (not only the matched one), each paired with its
`distinctParent` mass for lines 137-139. -/
def allDausP (e : Event) : List (GenPart × ℚ) :=
  ((higgsSel e).bind fun h => h.children.map dcdP).join

/-- The flat daughter list `all_daus_flat` itself. -/
def allDausFlat (e : Event) : List GenPart :=
  (allDausP e).map Prod.fst

/-- Line 124-126 neutrino classes among the flat daughters. -/
def neutrinoQ (p : GenPart) : Bool :=
  p.pdgId.natAbs == vELE_PDGID || p.pdgId.natAbs == vMU_PDGID ||
    p.pdgId.natAbs == vTAU_PDGID

/-- Line 127 charged-lepton classes among the flat daughters. -/
def leptonQ (p : GenPart) : Bool :=
  p.pdgId.natAbs == ELE_PDGID || p.pdgId.natAbs == MU_PDGID ||
    p.pdgId.natAbs == TAU_PDGID

/-- Line 113: `num_quarks`, daughters with `|pdgId| <= 5`. -/
def hwwNumQuarks (e : Event) : Nat :=
  (allDausFlat e).countP fun p => p.pdgId.natAbs ≤ b_PDGID

/-- Lines 114-117: `num_leptons`. -/
def hwwNumLeptons (e : Event) : Nat :=
  (allDausFlat e).countP fun p => leptonQ p

/-- Line 118: `num_electrons`. -/
def hwwNumElectrons (e : Event) : Nat :=
  (allDausFlat e).countP fun p => p.pdgId.natAbs == ELE_PDGID

/-- Line 119: `num_muons`. -/
def hwwNumMuons (e : Event) : Nat :=
  (allDausFlat e).countP fun p => p.pdgId.natAbs == MU_PDGID

/-- Line 120: `num_taus`. -/
def hwwNumTaus (e : Event) : Nat :=
  (allDausFlat e).countP fun p => p.pdgId.natAbs == TAU_PDGID

/-- Line 131: matched quark-like prongs (non-neutrino, non-lepton daughters
within `JET_DR`). -/
def fjNquarksH (e : Event) : Nat :=
  (allDausFlat e).countP fun p =>
    !neutrinoQ p && !leptonQ p && decide (deltaR2 e.fatjet p < jetDR2)

/-- Line 132: matched leptons. -/
def fjLepinprongsH (e : Event) : Nat :=
  (allDausFlat e).countP fun p =>
    leptonQ p && decide (deltaR2 e.fatjet p < jetDR2)

/-- Line 133: `num_m_cquarks` counts daughters with SIGNED `pdgId == b_PDGID`
(no absolute value, and the constant is 5, not `c_PDGID`), kept faithfully. -/
def fjNcquarksH (e : Event) : Nat :=
  (allDausFlat e).countP fun p =>
    p.pdgId == (b_PDGID : Int) && decide (deltaR2 e.fatjet p < jetDR2)

/-- Line 135: the charged-lepton daughters with their `distinctParent` mass. -/
def lepDausP (e : Event) : List (GenPart × ℚ) :=
  (allDausP e).filter fun c => leptonQ c.1

/-- Lines 137-138: `iswlepton = parent.mass == v.mass` where `parent` is the
first lepton daughter's `distinctParent`; `None` when either side is missing,
as awkward option semantics give. -/
def iswlepton (e : Event) : Option Bool :=
  match (lepDausP e).head?, vSel e with
  | some c, some v => some (c.2 == v.mass)
  | _, _ => none

/-- Line 139: `iswstarlepton = parent.mass == v_star.mass`. -/
def iswstarlepton (e : Event) : Option Bool :=
  match (lepDausP e).head?, vStarSel e with
  | some c, some v => some (c.2 == v.mass)
  | _, _ => none

/-- Line 141/154: pt of the first lepton daughter (`gen_Vlep_pt`). -/
def genVlepPt (e : Event) : Option ℚ :=
  ((lepDausP e).head?).map fun c => c.1.pt

/-- Line 147: `fj_H_VV_4q` — four quarks, no leptons. -/
def fjHVV4q (e : Event) : Int :=
  toLabel (hwwNumQuarks e == 4 && hwwNumLeptons e == 0)

/-- Line 148: `fj_H_VV_elenuqq`. -/
def fjHVVelenuqq (e : Event) : Int :=
  toLabel (hwwNumElectrons e == 1 && hwwNumQuarks e == 2 && hwwNumLeptons e == 1)

/-- Line 149: `fj_H_VV_munuqq` — one muon, two quarks, one lepton in total. -/
def fjHVVmunuqq (e : Event) : Int :=
  toLabel (hwwNumMuons e == 1 && hwwNumQuarks e == 2 && hwwNumLeptons e == 1)

/-- Line 150: `fj_H_VV_taunuqq`. -/
def fjHVVtaunuqq (e : Event) : Int :=
  toLabel (hwwNumTaus e == 1 && hwwNumQuarks e == 2 && hwwNumLeptons e == 1)

/-- Line 99: `fatjet.delta_r(higgs[:, 0])` (squared in the model).  When an
event has no Higgs candidate the source raises (index 0 of an empty list);
the model records `none` there. -/
def fjGenHjet (e : Event) : Option ℚ :=
  ((higgsSel e).head?).map fun h => deltaR2 e.fatjet h

/-- Line 100: `fatjet.delta_r(v)` (squared in the model). -/
def fjGenVdR (e : Event) : Option ℚ :=
  (vSel e).map fun v => deltaR2 e.fatjet v

/-- Line 101: `fatjet.delta_r(v_star)` (squared in the model). -/
def fjGenVstarDR (e : Event) : Option ℚ :=
  (vStarSel e).map fun v => deltaR2 e.fatjet v

/-- Line 102: `v.delta_r(v_star)` (squared in the model). -/
def genVgenVstarDR (e : Event) : Option ℚ :=
  match vSel e, vStarSel e with
  | some a, some c => some (deltaR2pp a c)
  | _, _ => none

/-- The variable mapping produced by `match_H` in the W branch, in source
order (lines 86, 98-103, 143-156).  ΔR-valued columns hold the squared
separation (see the header notes). -/
def matchHVars (events : List Event) : List (String × List EVal) :=
  [("fj_genH_pt", events.map fun e => .lq (fjGenHpt e)),
   ("fj_genH_jet", events.map fun e => .oq (fjGenHjet e)),
   ("fj_genV_dR", events.map fun e => .oq (fjGenVdR e)),
   ("fj_genVstar", events.map fun e => .oq (fjGenVstarDR e)),
   ("genV_genVstar_dR", events.map fun e => .oq (genVgenVstarDR e)),
   ("fj_nquarks", events.map fun e => .i (fjNquarksH e)),
   ("fj_ncquarks", events.map fun e => .i (fjNcquarksH e)),
   ("fj_lepinprongs", events.map fun e => .i (fjLepinprongsH e)),
   ("fj_H_VV_4q", events.map fun e => .i (fjHVV4q e)),
   ("fj_H_VV_elenuqq", events.map fun e => .i (fjHVVelenuqq e)),
   ("fj_H_VV_munuqq", events.map fun e => .i (fjHVVmunuqq e)),
   ("fj_H_VV_taunuqq", events.map fun e => .i (fjHVVtaunuqq e)),
   ("fj_H_VV_isVlepton", events.map fun e => .ob (iswlepton e)),
   ("fj_H_VV_isVstarlepton", events.map fun e => .ob (iswstarlepton e)),
   ("fj_H_VV_isMatched", events.map fun e => .b (isHwwMatched e)),
   ("gen_Vlep_pt", events.map fun e => .oq (genVlepPt e))]

/-- The mask column returned by `match_H`. -/
def matchHMask (events : List Event) : List Bool :=
  events.map matchedHiggsMask

/-!  `match_QCD` (lines 351-371). -/

/-- Line 358: gluon or light/heavy-quark partons, `|pdgId|` in `[21,1..5]`. -/
def qcdPartons (e : Event) : List GenPart :=
  e.genparts.filter fun p => getPidMask [g_PDGID, 1, 2, 3, 4, 5] p

/-- Line 359: any parton within `JET_DR` of the jet. -/
def qcdMatchedMask (e : Event) : Bool :=
  (qcdPartons e).any fun p => decide (deltaR2 e.fatjet p < jetDR2)

/-- Lines 361-369: the five mutually-exclusive flavor labels from the jet's
hadron counters, each passed through `to_label`. -/
def matchQCDVars (events : List Event) : List (String × List EVal) :=
  [("fj_QCDb", events.map fun e => .i (toLabel (e.fatjet.nBHadrons == 1))),
   ("fj_QCDbb", events.map fun e => .i (toLabel (decide (e.fatjet.nBHadrons > 1)))),
   ("fj_QCDc", events.map fun e =>
      .i (toLabel (e.fatjet.nCHadrons == 1 && e.fatjet.nBHadrons == 0))),
   ("fj_QCDcc", events.map fun e =>
      .i (toLabel (decide (e.fatjet.nCHadrons > 1) && e.fatjet.nBHadrons == 0))),
   ("fj_QCDothers", events.map fun e =>
      .i (toLabel (e.fatjet.nBHadrons == 0 && e.fatjet.nCHadrons == 0)))]

def matchQCDMask (events : List Event) : List Bool :=
  events.map qcdMatchedMask

/-!  `match_V` (lines 221-268). -/

/-- Line 222: W/Z candidates with both gen flags. -/
def vsSel (e : Event) : List GenPart :=
  e.genparts.filter fun p => getPidMask [W_PDGID, Z_PDGID] p && hasGenFlags p

/-- Line 223: the ΔR-closest V candidate. -/
def matchedV (e : Event) : Option GenPart :=
  argminFirst (deltaR2 e.fatjet) (vsSel e)

/-- Line 224: jet within `JET_DR` of the matched V. -/
def matchedVsMask (e : Event) : Bool :=
  (matchedV e).elim false fun v => decide (deltaR2 e.fatjet v < jetDR2)

/-- Lines 226-227: flattened distinct children of the matched V, restricted to
hard-process last copies. -/
def vDaughters (e : Event) : List GenPart :=
  ((matchedV e).elim [] distinctChildren).filter hasGenFlags

/-- Lines 229-238: the weighted decay code (2 quarks → 1, electrons → +3,
muons → +5, taus → +7). -/
def vDecay (e : Event) : Int :=
  (toLabel ((vDaughters e).countP (fun p => p.pdgId.natAbs < b_PDGID) == 2)) * 1 +
  (toLabel (decide ((vDaughters e).countP (fun p => p.pdgId.natAbs == ELE_PDGID) ≥ 1))) * 3 +
  (toLabel (decide ((vDaughters e).countP (fun p => p.pdgId.natAbs == MU_PDGID) ≥ 1))) * 5 +
  (toLabel (decide ((vDaughters e).countP (fun p => p.pdgId.natAbs == TAU_PDGID) ≥ 1))) * 7

/-- Lines 240-243: matched non-neutrino daughters. -/
def vNprongs (e : Event) : Nat :=
  ((vDaughters e).filter fun p => !neutrinoQ p).countP fun p =>
    decide (deltaR2 e.fatjet p < jetDR2)

/-- Lines 245-250: matched charged-lepton daughters (the source special-cases
an entirely empty batch to the scalar 0; eventwise the count below is what it
computes whenever the batch is nonempty). -/
def vLepinprongs (e : Event) : Nat :=
  ((vDaughters e).filter fun p => leptonQ p).countP fun p =>
    decide (deltaR2 e.fatjet p < jetDR2)

/-- Lines 252-254: matched charm daughters among the non-neutrino ones. -/
def vNcquarks (e : Event) : Nat :=
  (((vDaughters e).filter fun p => !neutrinoQ p).filter fun p =>
      p.pdgId.natAbs == c_PDGID).countP fun p =>
    decide (deltaR2 e.fatjet p < jetDR2)

/-- Line 256: any daughter within 0.8. -/
def matchedVdausMask (e : Event) : Bool :=
  (vDaughters e).any fun p => decide (deltaR2 e.fatjet p < jetDR2)

/-- Line 257: `match_V`'s mask requires both the boson and a daughter within
the radius — unlike `match_H`'s (claim C2). -/
def vMatchedMask (e : Event) : Bool :=
  matchedVsMask e && matchedVdausMask e

/-- Lines 258-267: the `match_V` variable mapping, in source order. -/
def matchVVars (events : List Event) : List (String × List EVal) :=
  [("fj_nprongs", events.map fun e => .i (vNprongs e)),
   ("fj_lepinprongs", events.map fun e => .i (vLepinprongs e)),
   ("fj_ncquarks", events.map fun e => .i (vNcquarks e)),
   ("fj_V_isMatched", events.map fun e => .b (vMatchedMask e)),
   ("fj_V_2q", events.map fun e => .i (toLabel (vDecay e == 1))),
   ("fj_V_elenu", events.map fun e => .i (toLabel (vDecay e == 3))),
   ("fj_V_munu", events.map fun e => .i (toLabel (vDecay e == 5))),
   ("fj_V_taunu", events.map fun e => .i (toLabel (vDecay e == 7)))]

def matchVMask (events : List Event) : List Bool :=
  events.map vMatchedMask

/-!  `match_Top` (lines 271-348). -/

/-- Line 272: top candidates with both gen flags. -/
def topsSel (e : Event) : List GenPart :=
  e.genparts.filter fun p => getPidMask [TOP_PDGID] p && hasGenFlags p

/-- Lines 273-274: number of tops within the radius. -/
def numMatchedTops (e : Event) : Nat :=
  ((topsSel e).filter fun p => decide (deltaR2 e.fatjet p < jetDR2)).countP
    fun p => decide (deltaR2 e.fatjet p < jetDR2)

/-- Lines 277-278: distinct children of ALL tops, hard-process last copies. -/
def topDaughters (e : Event) : List GenPart :=
  ((topsSel e).bind distinctChildren).filter hasGenFlags

/-- Lines 281-282: the W daughters' own distinct hard-process last-copy
children. -/
def wbosonDaughters (e : Event) : List GenPart :=
  (((topDaughters e).filter fun p => p.pdgId.natAbs == W_PDGID).bind
      distinctChildren).filter hasGenFlags

/-- Line 285: the b-quark siblings. -/
def topBquarks (e : Event) : List GenPart :=
  (topDaughters e).filter fun p => p.pdgId.natAbs == 5

/-- Lines 301-320: tau decay code, summed over the tau daughters.  For each
tau among the W daughters, its own `children` restricted to last copies give
the code (no electron/muon → 1, one electron → +3, one muon → +5); the final
`ak.sum(..., axis=-1)` adds the per-tau codes within the event. -/
def topTauDecay (e : Event) : Int :=
  (((wbosonDaughters e).filter fun p => p.pdgId.natAbs == TAU_PDGID).map
    fun tau =>
      let cs := tau.children.filter GenPart.isLastCopy
      (toLabel ((cs.countP fun c =>
          c.pdgId.natAbs == ELE_PDGID || c.pdgId.natAbs == MU_PDGID) == 0)) * 1 +
      (toLabel ((cs.countP fun c => c.pdgId.natAbs == ELE_PDGID) == 1)) * 3 +
      (toLabel ((cs.countP fun c => c.pdgId.natAbs == MU_PDGID) == 1)) * 5).sum

/-- Lines 286-298 class predicates over the W daughters. -/
def topQuarkQ (p : GenPart) : Bool :=
  !leptonQ p && !neutrinoQ p

/-- Lines 323-329: per-class matched counts. -/
def topNquarksNob (e : Event) : Nat :=
  ((wbosonDaughters e).filter topQuarkQ).countP fun p =>
    decide (deltaR2 e.fatjet p < jetDR2)

def topNbquarks (e : Event) : Nat :=
  (topBquarks e).countP fun p => decide (deltaR2 e.fatjet p < jetDR2)

def topNcquarks (e : Event) : Nat :=
  ((wbosonDaughters e).filter fun p => p.pdgId.natAbs == c_PDGID).countP
    fun p => decide (deltaR2 e.fatjet p < jetDR2)

def topNleptons (e : Event) : Nat :=
  ((wbosonDaughters e).filter leptonQ).countP fun p =>
    decide (deltaR2 e.fatjet p < jetDR2)

def topNele (e : Event) : Nat :=
  ((wbosonDaughters e).filter fun p => p.pdgId.natAbs == ELE_PDGID).countP
    fun p => decide (deltaR2 e.fatjet p < jetDR2)

def topNmu (e : Event) : Nat :=
  ((wbosonDaughters e).filter fun p => p.pdgId.natAbs == MU_PDGID).countP
    fun p => decide (deltaR2 e.fatjet p < jetDR2)

def topNtau (e : Event) : Nat :=
  ((wbosonDaughters e).filter fun p => p.pdgId.natAbs == TAU_PDGID).countP
    fun p => decide (deltaR2 e.fatjet p < jetDR2)

/-- Lines 331-333: at least one top and one daughter within the radius. -/
def topMatchedMask (e : Event) : Bool :=
  ((topsSel e).any fun p => decide (deltaR2 e.fatjet p < jetDR2)) &&
  ((topDaughters e).any fun p => decide (deltaR2 e.fatjet p < jetDR2))

/-- Lines 335-346: the `match_Top` variable mapping, in source order. -/
def matchTopVars (events : List Event) : List (String × List EVal) :=
  [("fj_Top_isMatched", events.map fun e => .b (topMatchedMask e)),
   ("fj_Top_numMatched", events.map fun e => .i (numMatchedTops e)),
   ("fj_Top_nquarksnob", events.map fun e => .i (topNquarksNob e)),
   ("fj_Top_nbquarks", events.map fun e => .i (topNbquarks e)),
   ("fj_Top_ncquarks", events.map fun e => .i (topNcquarks e)),
   ("fj_Top_nleptons", events.map fun e => .i (topNleptons e)),
   ("fj_Top_nele", events.map fun e => .i (topNele e)),
   ("fj_Top_nmu", events.map fun e => .i (topNmu e)),
   ("fj_Top_ntau", events.map fun e => .i (topNtau e)),
   ("fj_Top_taudecay", events.map fun e => .i (topTauDecay e))]

def matchTopMask (events : List Event) : List Bool :=
  events.map topMatchedMask

/-!  Dispatcher `tagger_gen_matching` (lines 386-444). -/

/-- Helper for Python's substring test: does the needle start the haystack? -/
def listStartsWith : List Char → List Char → Bool
  | [], _ => true
  | _ :: _, [] => false
  | a :: as, c :: cs => a == c && listStartsWith as cs

/-- Python's `needle in hay` substring containment on strings. -/
def pyIn (needle hay : List Char) : Bool :=
  match hay with
  | [] => listStartsWith needle []
  | _ :: t => listStartsWith needle hay || pyIn needle t

/-- String front end for `pyIn`. -/
def pyContains (needle hay : String) : Bool :=
  pyIn needle.toList hay.toList

/-- Which classifier the dispatcher selects. -/
inductive Branch : Type where
  | bH : Branch
  | bQCD : Branch
  | bV : Branch
  | bTop : Branch
  | bNoMatch : Branch
deriving DecidableEq

/-- Lines 412-428: the if/elif chain over the sample label, in source order —
an `"H"` anywhere in the label wins over `"QCD"`, `"VJets"` and `"Top"`
(claim C10). -/
def branchSelect (label : String) : Branch :=
  if pyContains "H" label then .bH
  else if pyContains "QCD" label then .bQCD
  else if pyContains "VJets" label then .bV
  else if pyContains "Top" label then .bTop
  else .bNoMatch

/-- Lines 412-428: the selected classifier's mask and variable mapping.  The
H branch appends `fj_genRes_mass = 125 * ones(len(events))` (line 415); the
no-match branch yields the empty mapping and an all-false mask.  NOTE: the
source's line 414 calls `match_H(genparts, fatjets)`, but `match_H` demands a
third positional argument `lepton`; in Python this branch therefore raises
`TypeError` (claim C1).  The model gives the branch its evident intended
semantics. -/
def branchPair (events : List Event) (label : String) :
    List Bool × List (String × List EVal) :=
  match branchSelect label with
  | .bH => (matchHMask events,
      matchHVars events ++ [("fj_genRes_mass", events.map fun _ => .q 125)])
  | .bQCD => (matchQCDMask events, matchQCDVars events)
  | .bV => (matchVMask events, matchVVars events)
  | .bTop => (matchTopMask events, matchTopVars events)
  | .bNoMatch => (events.map fun _ => false, [])

/-- Line 433: `AllGenVars = {**GenVars, **{"fj_genjetmass": ...}}` — the gen
jet mass column is always appended, whatever the branch. -/
def allGenVarsOf (events : List Event) (label : String) :
    List (String × List EVal) :=
  (branchPair events label).2 ++
    [("fj_genjetmass", events.map fun e => .q e.fatjet.matchedGenMass)]

/-- Line 437: schema normalization — one entry per requested name, taken from
`AllGenVars` when present and `np.zeros(len(genparts))` (one zero per event)
otherwise.  The `to_numpy` loop of lines 438-442 changes representations only
and is the identity in the model. -/
def taggerGenMatching (events : List Event) (genlabels : List String)
    (label : String) : List Bool × List (String × List EVal) :=
  ((branchPair events label).1,
   genlabels.map fun k =>
     (k, ((allGenVarsOf events label).lookup k).getD
           (events.map fun _ => .q 0)))

theorem map_fst_map_pair {α : Type} (l : List String) (f : String → α) :
    (l.map fun x => (x, f x)).map Prod.fst = l := by
  induction l with
  | nil => rfl
  | cons x xs ih => simp [ih]

theorem lookup_map_self {α : Type} {k : String} {l : List String}
    (f : String → α) (h : k ∈ l) :
    (l.map fun x => (x, f x)).lookup k = some (f k) := by
  induction l with
  | nil => simp at h
  | cons x xs ih =>
    rcases List.mem_cons.mp h with rfl | hmem
    · simp [List.lookup]
    · by_cases hx : k = x
      · subst hx
        simp [List.lookup]
      · have hbeq : (k == x) = false := by simpa using hx
        simp only [List.map_cons, List.lookup, hbeq]
        exact ih hmem

/-!  `get_neutrino_z` (lines 494-520).  Inputs are finite doubles; the
polynomial coefficients are exact rationals in the model, and IEEE special
values can only arise from the divisions by `2A`, from `np.sqrt` of a negative
discriminant, and from `np.maximum` — modelled by the `EF` type.  Rounding and
overflow of ordinary arithmetic are idealized away; signed zeros are collapsed
(the only zero denominator that occurs, `2A = 0`, is the positive zero
`4*(t*t - z*z)` with `t*t == z*z`). -/

/-- A double: NaN, one of the infinities, or a finite (exact) value. -/
inductive EF : Type where
  | nan : EF
  | pinf : EF
  | ninf : EF
  | fin : ℚ → EF
deriving DecidableEq

/-- Largest finite double, the replacement `np.nan_to_num` uses for `+inf`. -/
def MAXFLOAT : ℚ := (2^53 - 1) * 2^971

/-- IEEE addition. -/
def efAdd : EF → EF → EF
  | .nan, _ => .nan
  | _, .nan => .nan
  | .pinf, .ninf => .nan
  | .ninf, .pinf => .nan
  | .pinf, _ => .pinf
  | _, .pinf => .pinf
  | .ninf, _ => .ninf
  | _, .ninf => .ninf
  | .fin a, .fin c => .fin (a + c)

/-- IEEE negation. -/
def efNeg : EF → EF
  | .nan => .nan
  | .pinf => .ninf
  | .ninf => .pinf
  | .fin a => .fin (-a)

/-- IEEE subtraction. -/
def efSub (a c : EF) : EF :=
  efAdd a (efNeg c)

/-- IEEE multiplication (`0 * inf = NaN`). -/
def efMul : EF → EF → EF
  | .nan, _ => .nan
  | _, .nan => .nan
  | .pinf, .pinf => .pinf
  | .pinf, .ninf => .ninf
  | .ninf, .pinf => .ninf
  | .ninf, .ninf => .pinf
  | .pinf, .fin c => if 0 < c then .pinf else if c < 0 then .ninf else .nan
  | .ninf, .fin c => if 0 < c then .ninf else if c < 0 then .pinf else .nan
  | .fin a, .pinf => if 0 < a then .pinf else if a < 0 then .ninf else .nan
  | .fin a, .ninf => if 0 < a then .ninf else if a < 0 then .pinf else .nan
  | .fin a, .fin c => .fin (a * c)

/-- IEEE division with a positive-zero denominator (`x/0 = sign(x)*inf`,
`0/0 = NaN`), finite/infinite = 0, infinite/infinite = NaN. -/
def efDiv : EF → EF → EF
  | .nan, _ => .nan
  | _, .nan => .nan
  | .fin a, .fin c =>
      if c ≠ 0 then .fin (a / c)
      else if a = 0 then .nan
      else if 0 < a then .pinf else .ninf
  | .fin _, .pinf => .fin 0
  | .fin _, .ninf => .fin 0
  | .pinf, .fin c => if 0 ≤ c then .pinf else .ninf
  | .ninf, .fin c => if 0 ≤ c then .ninf else .pinf
  | .pinf, _ => .nan
  | .ninf, _ => .nan

/-- `np.maximum`: NaN propagates, otherwise the larger value. -/
def efMax : EF → EF → EF
  | .nan, _ => .nan
  | _, .nan => .nan
  | .pinf, _ => .pinf
  | _, .pinf => .pinf
  | .ninf, c => c
  | a, .ninf => a
  | .fin a, .fin c => .fin (max a c)

/-- `ak.nan_to_num` with default arguments: NaN → 0, infinities → the largest
finite doubles.  The result is always finite. -/
def efNanToNum : EF → EF
  | .nan => .fin 0
  | .pinf => .fin MAXFLOAT
  | .ninf => .fin (-MAXFLOAT)
  | .fin a => .fin a

/-- Visible four-momentum in Cartesian components, as the solver reads it. -/
structure Vec4 where
  x : ℚ
  y : ℚ
  z : ℚ
  t : ℚ

/-- `vis.mass * vis.mass`: coffea's LorentzVector mass is `sqrt(t^2 - |p|^2)`,
so its square is the quadratic form below whenever `vis` is timelike (the
modelled domain; a spacelike `vis` gives a NaN mass in the source). -/
def visMassSq (v : Vec4) : ℚ :=
  v.t * v.t - v.x * v.x - v.y * v.y - v.z * v.z

/-- Line 500: `a = h_mass^2 - vis.mass^2 + 2*vis.x*inv.x + 2*vis.y*inv.y`. -/
def aCoef (v : Vec4) (px py hm : ℚ) : ℚ :=
  hm * hm - visMassSq v + 2 * v.x * px + 2 * v.y * py

/-- Line 501: `A = 4*(vis.t^2 - vis.z^2)`. -/
def bigA (v : Vec4) : ℚ :=
  4 * (v.t * v.t - v.z * v.z)

/-- Line 502: `B = -4*a*vis.z`. -/
def bigB (v : Vec4) (px py hm : ℚ) : ℚ :=
  -4 * aCoef v px py hm * v.z

/-- Line 503: `C = 4*vis.t^2*(inv.x^2 + inv.y^2) - a^2`. -/
def bigC (v : Vec4) (px py hm : ℚ) : ℚ :=
  4 * v.t * v.t * (px * px + py * py) - aCoef v px py hm * aCoef v px py hm

/-- Line 504: the discriminant `delta = B^2 - 4*A*C`. -/
def deltaCoef (v : Vec4) (px py hm : ℚ) : ℚ :=
  bigB v px py hm * bigB v px py hm - 4 * bigA v * bigC v px py hm

/-- `np.sqrt(delta)` as the theorems feed it to the solver: NaN for a negative
radicand, and otherwise the (exact, nonnegative) root `s`, supplied with its
defining hypotheses `0 ≤ s` and `s^2 = delta`. -/
def mkSqrt (d s : ℚ) : EF :=
  if d < 0 then .nan else .fin s

/-- Lines 505-510: the returned longitudinal component `invZ`.  `neg` is
`-B/(2A)` through `nan_to_num`; `pos` is the larger root through `nan_to_num`;
the result combines them with the float-cast boolean indicators
`(delta < 0)` and `(delta > 0)`. -/
def getNeutrinoZ (v : Vec4) (px py hm : ℚ) (sq : EF) : EF :=
  let A := bigA v
  let B := bigB v px py hm
  let delta := deltaCoef v px py hm
  let neg := efNanToNum (efDiv (.fin (-B)) (.fin (2 * A)))
  let pos := efNanToNum (efMax
    (efDiv (efAdd (.fin (-B)) sq) (.fin (2 * A)))
    (efDiv (efSub (.fin (-B)) sq) (.fin (2 * A))))
  efAdd (efMul (.fin (if delta < 0 then 1 else 0)) neg)
        (efMul (.fin (if 0 < delta then 1 else 0)) pos)

/-- The larger quadratic root `(-B + s)/(2A)` selected by the `delta > 0`
branch (for `A > 0`). -/
def posRoot (v : Vec4) (px py hm s : ℚ) : ℚ :=
  (-(bigB v px py hm) + s) / (2 * bigA v)

/-- Squared invariant mass of `vis` plus a massless neutrino with transverse
components `(px, py)`, longitudinal component `z` and energy `nt` (the source
sets `t = sqrt(px^2 + py^2 + z^2)`; theorems carry `nt` with its defining
hypotheses). -/
def massSqPlus (v : Vec4) (px py z nt : ℚ) : ℚ :=
  (v.t + nt)^2 - (v.x + px)^2 - (v.y + py)^2 - (v.z + z)^2

/-!  Concrete events used by the evaluation theorems. -/

/-- The daughter-proximity condition claim C2 reads into `match_H`'s mask:
some flat decay daughter within the association radius (the analogue of
`match_V`'s `matched_vdaus_mask`, line 256, over `match_H`'s daughter set). -/
def hwwDausMatchedMask (e : Event) : Bool :=
  (allDausFlat e).any fun p => decide (deltaR2 e.fatjet p < jetDR2)

/-- Scenario of claim C6: H → WW, one W → μ ν̄, the other W → quarks, jet on
the hadronic W's direction. -/
def muC6 : GenPart := .mk 13 40 (-1) (-1) 0 false true []

def nuC6 : GenPart := .mk (-14) 35 (-1) (-1) 0 false true []

def q1C6 : GenPart := .mk 1 60 1 1 0 false true []

def q2C6 : GenPart := .mk (-2) 55 1 1 0 false true []

def w1C6 : GenPart := .mk 24 90 (-1) (-1) (804/10) true true [muC6, nuC6]

def w2C6 : GenPart := .mk (-24) 110 1 1 (804/10) true true [q1C6, q2C6]

def higgsC6 : GenPart := .mk 25 250 1 1 125 true true [w1C6, w2C6]

def evC6 : Event :=
  ⟨[higgsC6, w1C6, w2C6, muC6, nuC6, q1C6, q2C6], ⟨400, 1, 1, 80, 0, 0, 30⟩⟩

/-- Counterexample event for claim C2: the Higgs sits on the jet axis but all
of its decay daughters are far away. -/
def qaC2 : GenPart := .mk 1 60 5 0 0 false true []

def qbC2 : GenPart := .mk (-2) 55 5 0 0 false true []

def qcC2 : GenPart := .mk 3 50 5 0 0 false true []

def qdC2 : GenPart := .mk (-4) 45 5 0 0 false true []

def waC2 : GenPart := .mk 24 90 5 0 (804/10) true true [qaC2, qbC2]

def wbC2 : GenPart := .mk (-24) 110 5 0 (798/10) true true [qcC2, qdC2]

def higgsC2 : GenPart := .mk 25 250 0 0 125 true true [waC2, wbC2]

def evC2 : Event :=
  ⟨[higgsC2, waC2, wbC2, qaC2, qbC2, qcC2, qdC2], ⟨400, 0, 0, 80, 0, 0, 30⟩⟩

/-- Failing input of claim C4: an event whose only pdgId-25 particle fails the
`isLastCopy` flag, so zero Higgs candidates survive the selection. -/
def evC4 : Event := ⟨[.mk 25 50 0 0 125 true false []], ⟨400, 0, 0, 80, 0, 0, 30⟩⟩

/-- Failing input of claim C9: two Higgs candidates, the jet closer to the
second (pt 60) one. -/
def evC9 : Event :=
  ⟨[.mk 25 50 3 0 125 true true [], .mk 25 60 0 0 125 true true []],
   ⟨400, 0, 0, 80, 0, 0, 30⟩⟩

/-- Counterexample event for claim C5: no gen particles, gen-jet mass 7. -/
def evC5 : Event := ⟨[], ⟨100, 0, 0, 10, 0, 0, 7⟩⟩

/-- C2, counterexample: the claim says the W-branch mask is true iff the jet
is within 0.8 of the selected Higgs AND within 0.8 of the decay daughters; on
`evC2` the mask returned by `match_H` (line 79) is true although no daughter
is within 0.8 — the daughter condition never enters the mask. -/
theorem C2_counterexample :
    matchedHiggsMask evC2 = true ∧ hwwDausMatchedMask evC2 = false := by
  constructor
  · norm_num [matchedHiggsMask, matchedHiggs, higgsSel, evC2, higgsC2, waC2, wbC2,
      qaC2, qbC2, qcC2, qdC2, GenPart.pdgId, GenPart.pt, GenPart.eta, GenPart.phi,
      GenPart.mass, GenPart.fromHardProcess, GenPart.isLastCopy, GenPart.children,
      getPidMask, hasGenFlags, argminFirst, deltaR2, jetDR2, JET_DR, HIGGS_PDGID,
      List.filter]
  · have h1 : allDausFlat evC2 = [qaC2, qbC2, qcC2, qdC2] := by
      simp [allDausFlat, allDausP, higgsSel, evC2, higgsC2, waC2, wbC2, qaC2,
        qbC2, qcC2, qdC2, GenPart.pdgId, GenPart.children, getPidMask,
        hasGenFlags, GenPart.fromHardProcess, GenPart.isLastCopy, dcdP, dcdPList,
        HIGGS_PDGID]
    have h2 : evC2.fatjet = ⟨400, 0, 0, 80, 0, 0, 30⟩ := rfl
    norm_num [hwwDausMatchedMask, h1, h2, qaC2, qbC2, qcC2, qdC2, GenPart.eta,
      GenPart.phi, deltaR2, jetDR2, JET_DR]

/-- C2, amended: the matched mask returned by `match_H` is true iff the event
has a Higgs candidate whose ΔR to the jet is minimal among candidates and
(squared) below the 0.8 threshold — the decay daughters are not consulted. -/
theorem C2_mask_rule (e : Event) :
    matchedHiggsMask e = true ↔
      ∃ h ∈ higgsSel e,
        (∀ h2 ∈ higgsSel e, deltaR2 e.fatjet h ≤ deltaR2 e.fatjet h2) ∧
        deltaR2 e.fatjet h < jetDR2 := by
  constructor
  · intro hm
    unfold matchedHiggsMask at hm
    rcases hh : matchedHiggs e with _ | h
    · rw [hh] at hm
      simp at hm
    · rw [hh] at hm
      simp only [Option.elim, decide_eq_true_eq] at hm
      exact ⟨h, argminFirst_mem hh, argminFirst_le hh, hm⟩
  · rintro ⟨h, hmem, hmin, hlt⟩
    unfold matchedHiggsMask
    rcases hh : matchedHiggs e with _ | h0
    · have : higgsSel e = [] := argminFirst_eq_none.mp hh
      rw [this] at hmem
      simp at hmem
    · simp only [Option.elim, decide_eq_true_eq]
      exact lt_of_le_of_lt (argminFirst_le hh h hmem) hlt

/-- C4: on a batch with zero selected Higgs candidates, `match_H` would raise
at line 99 in the source; the quantities of lines 78-86 evaluate to an empty
`fj_genH_pt` list — not the `FILL_NONE_VALUE` fill the claim (and the
`ak.fill_none` call) promises — and a false mask. -/
theorem C4_empty_eval :
    fjGenHpt evC4 = [] ∧ matchedHiggsMask evC4 = false ∧
      fjGenHpt evC4 ≠ [FILL_NONE_VALUE] := by
  decide

/-- C6: on the synthetic H → WW event with one W → μ ν̄ and one W → quarks and
the jet on the hadronic W, `match_H` labels the event `munuqq` (and not `4q`)
and sets `fj_H_VV_isMatched`. -/
theorem C6_scenario :
    fjHVVmunuqq evC6 = 1 ∧ fjHVV4q evC6 = 0 ∧ isHwwMatched evC6 = true := by
  decide

/-- C9: `fj_genH_pt` records the pts of ALL selected Higgs candidates (here
`[50, 60]`), not the pt of the ΔR-closest candidate (here 60) the claim
promises. -/
theorem C9_all_pts_eval :
    fjGenHpt evC9 = [50, 60] ∧ (matchedHiggs evC9).map GenPart.pt = some 60 ∧
      fjGenHpt evC9 ≠ [60] := by
  refine ⟨?_, ?_, ?_⟩ <;>
    norm_num [fjGenHpt, matchedHiggs, higgsSel, evC9, GenPart.pdgId, GenPart.pt,
      GenPart.eta, GenPart.phi, GenPart.mass, GenPart.fromHardProcess,
      GenPart.isLastCopy, GenPart.children, getPidMask, hasGenFlags, argminFirst,
      deltaR2, jetDR2, JET_DR, HIGGS_PDGID]

/-- C10: the dispatcher's branch tests run in source order, so any label
containing `"H"` — including labels that also contain `"QCD"`, `"VJets"` or
`"Top"` — selects the Higgs branch. -/
theorem C10_H_priority (label : String) (h : pyContains "H" label = true) :
    branchSelect label = .bH := by
  unfold branchSelect
  simp [h]

/-- Witness for C10 at the label `"QCD_HT700"`, which contains both `"QCD"`
and `"H"`. -/
theorem C10_H_priority_witness : branchSelect "QCD_HT700" = .bH :=
  C10_H_priority "QCD_HT700" (by decide)

/-- C1: on a label containing `"H"` the dispatcher selects `match_H`, returns
its mask, and fills `fj_genRes_mass` with 125 for every event — evaluated at
the label `"HToWW"` on a one-event batch.  (This is the branch's evident
intended semantics; the source's line 414 itself raises `TypeError` because it
passes two arguments to the three-parameter `match_H` — see the C1 entry.) -/
theorem C1_dispatch_eval :
    taggerGenMatching [evC6] ["fj_genRes_mass"] "HToWW" =
      (matchHMask [evC6], [("fj_genRes_mass", [EVal.q 125])]) ∧
    matchHMask [evC6] = [true] := by
  constructor
  · rfl
  · norm_num [matchHMask, matchedHiggsMask, matchedHiggs, higgsSel, evC6,
      higgsC6, w1C6, w2C6, muC6, nuC6, q1C6, q2C6, GenPart.pdgId, GenPart.pt,
      GenPart.eta, GenPart.phi, GenPart.mass, GenPart.fromHardProcess,
      GenPart.isLastCopy, GenPart.children, getPidMask, hasGenFlags,
      argminFirst, deltaR2, jetDR2, JET_DR, HIGGS_PDGID]

/-- C5, amended: the dispatcher's output mapping has exactly the requested
names as keys, and every requested name that `AllGenVars` (the selected
classifier's variables, plus `fj_genRes_mass` on the H branch, plus the
always-appended `fj_genjetmass`) does not bind is zero-filled with one zero
per event.  (The original claim fails for `fj_genjetmass`, which is bound to
the matched gen-jet mass for every branch.) -/
theorem C5_schema (events : List Event) (genlabels : List String)
    (label : String) :
    ((taggerGenMatching events genlabels label).2.map Prod.fst = genlabels) ∧
    (∀ k ∈ genlabels, (allGenVarsOf events label).lookup k = none →
      (taggerGenMatching events genlabels label).2.lookup k =
        some (events.map fun _ => EVal.q 0)) := by
  constructor
  · exact map_fst_map_pair genlabels _
  · intro k hk hnone
    have hl := lookup_map_self
      (fun k2 => ((allGenVarsOf events label).lookup k2).getD
        (events.map fun _ => EVal.q 0)) hk
    show (genlabels.map fun k2 =>
        (k2, ((allGenVarsOf events label).lookup k2).getD
          (events.map fun _ => EVal.q 0))).lookup k = _
    rw [hl]
    simp [hnone]

/-- Witness for C5 (amended): on a one-event batch with an unmatched label and
the request `["fj_nprongs"]` — a name no branch of this call produces — the
output has exactly that key, zero-filled. -/
theorem C5_schema_witness :
    ((taggerGenMatching [evC5] ["fj_nprongs"] "X").2.map Prod.fst =
      ["fj_nprongs"]) ∧
    (taggerGenMatching [evC5] ["fj_nprongs"] "X").2.lookup "fj_nprongs" =
      some [EVal.q 0] := by
  have h := C5_schema [evC5] ["fj_nprongs"] "X"
  refine ⟨h.1, ?_⟩
  have h2 := h.2 "fj_nprongs" (by simp) (by rfl)
  simpa using h2

/-- C5, counterexample: requesting `fj_genjetmass` under a label that matches
no classifier binds it to the matched gen-jet mass (7 here), not to the
zero-filled default the claim promises for names the classifier does not
produce. -/
theorem C5_counterexample :
    (taggerGenMatching [evC5] ["fj_genjetmass"] "X").2 =
      [("fj_genjetmass", [EVal.q 7])] ∧ EVal.q 7 ≠ EVal.q 0 := by
  constructor
  · rfl
  · intro h
    rw [EVal.q.injEq] at h
    norm_num at h

theorem efDiv_fin_ne (a c : ℚ) (hc : c ≠ 0) :
    efDiv (.fin a) (.fin c) = .fin (a / c) := by
  simp [efDiv, hc]

theorem efNanToNum_isFin (x : EF) : ∃ q, efNanToNum x = .fin q := by
  cases x <;> exact ⟨_, rfl⟩

/-- The solver's output shape: a float-cast boolean indicator times a
`nan_to_num`-sanitized value, summed — always a finite value. -/
theorem indicator_sum_isFin (i1 i2 : ℚ) (x y : EF) :
    ∃ q, efAdd (efMul (.fin i1) (efNanToNum x)) (efMul (.fin i2) (efNanToNum y)) =
      .fin q := by
  obtain ⟨a, ha⟩ := efNanToNum_isFin x
  obtain ⟨c, hc⟩ := efNanToNum_isFin y
  exact ⟨i1 * a + i2 * c, by rw [ha, hc]; rfl⟩

/-- Evaluation of `get_neutrino_z` on a negative discriminant: the vertex
`-B/(2A)` is returned (for nonzero leading coefficient). -/
theorem getNeutrinoZ_eval_neg (v : Vec4) (px py hm s : ℚ)
    (hA : bigA v ≠ 0) (hd : deltaCoef v px py hm < 0) :
    getNeutrinoZ v px py hm (mkSqrt (deltaCoef v px py hm) s) =
      .fin (-(bigB v px py hm) / (2 * bigA v)) := by
  have h2A : 2 * bigA v ≠ 0 := mul_ne_zero two_ne_zero hA
  simp only [getNeutrinoZ, mkSqrt, if_pos hd, if_neg (not_lt.mpr (le_of_lt hd)),
    efDiv_fin_ne _ _ h2A]
  show efAdd (efMul (.fin 1) (efNanToNum (.fin _)))
      (efMul (.fin 0) (efNanToNum (efMax (efDiv (efAdd (.fin _) .nan) _)
        (efDiv (efSub (.fin _) .nan) _)))) = _
  simp only [efAdd, efSub, efNeg, efMax, efNanToNum, efMul, efDiv]
  norm_num

/-- Evaluation of `get_neutrino_z` on a zero discriminant: both indicator
branches are off and the result is 0, whatever `A` and the supplied root. -/
theorem getNeutrinoZ_eval_zero (v : Vec4) (px py hm s : ℚ)
    (hd : deltaCoef v px py hm = 0) :
    getNeutrinoZ v px py hm (mkSqrt (deltaCoef v px py hm) s) = .fin 0 := by
  have hnl : ¬(deltaCoef v px py hm < 0) := by rw [hd]; exact lt_irrefl 0
  have hng : ¬(0 < deltaCoef v px py hm) := by rw [hd]; exact lt_irrefl 0
  simp only [getNeutrinoZ, mkSqrt, if_neg hnl, if_neg hng]
  obtain ⟨a, ha⟩ := efNanToNum_isFin (efDiv (.fin (-bigB v px py hm))
    (.fin (2 * bigA v)))
  obtain ⟨c, hc⟩ := efNanToNum_isFin (efMax
    (efDiv (efAdd (.fin (-bigB v px py hm)) (.fin s)) (.fin (2 * bigA v)))
    (efDiv (efSub (.fin (-bigB v px py hm)) (.fin s)) (.fin (2 * bigA v))))
  rw [ha, hc]
  show EF.fin (0 * a + 0 * c) = .fin 0
  norm_num

/-- Evaluation of `get_neutrino_z` on a positive discriminant: the larger of
the two real roots is returned (for nonzero leading coefficient). -/
theorem getNeutrinoZ_eval_pos (v : Vec4) (px py hm s : ℚ)
    (hA : bigA v ≠ 0) (hd : 0 < deltaCoef v px py hm) :
    getNeutrinoZ v px py hm (mkSqrt (deltaCoef v px py hm) s) =
      .fin (max ((-(bigB v px py hm) + s) / (2 * bigA v))
                ((-(bigB v px py hm) + -s) / (2 * bigA v))) := by
  have h2A : 2 * bigA v ≠ 0 := mul_ne_zero two_ne_zero hA
  simp only [getNeutrinoZ, mkSqrt, if_neg (not_lt.mpr (le_of_lt hd)), if_pos hd,
    efAdd, efSub, efNeg, efDiv_fin_ne _ _ h2A, efMax, efNanToNum, efMul]
  norm_num

/-- C3, amended: with a nonzero leading coefficient, `get_neutrino_z` returns
`-B/(2A)` when the discriminant is negative and the larger real root when it is
strictly positive; when the discriminant is exactly zero both float-cast
indicators `(delta < 0)` and `(delta > 0)` vanish and the result is 0, not the
double root the original claim (which reads "delta ≥ 0") demands. -/
theorem C3_policy (v : Vec4) (px py hm s : ℚ) (hA : bigA v ≠ 0) (hs : 0 ≤ s)
    (hs2 : 0 ≤ deltaCoef v px py hm → s ^ 2 = deltaCoef v px py hm) :
    getNeutrinoZ v px py hm (mkSqrt (deltaCoef v px py hm) s) =
      .fin (if deltaCoef v px py hm < 0 then
              -(bigB v px py hm) / (2 * bigA v)
            else if deltaCoef v px py hm = 0 then 0
            else max ((-(bigB v px py hm) + s) / (2 * bigA v))
                     ((-(bigB v px py hm) - s) / (2 * bigA v))) := by
  rcases lt_trichotomy (deltaCoef v px py hm) 0 with hd | hd | hd
  · rw [getNeutrinoZ_eval_neg v px py hm s hA hd, if_pos hd]
  · rw [getNeutrinoZ_eval_zero v px py hm s hd,
      if_neg (by rw [hd]; exact lt_irrefl 0), if_pos hd]
  · rw [getNeutrinoZ_eval_pos v px py hm s hA hd,
      if_neg (not_lt.mpr (le_of_lt hd)), if_neg (ne_of_gt hd)]
    rw [sub_eq_add_neg]

/-- Witness for C3 (amended): a concrete positive-discriminant input where the
solver returns the larger root 7812. -/
theorem C3_policy_witness :
    getNeutrinoZ ⟨0, 0, 0, 1⟩ 0 0 125
      (mkSqrt (deltaCoef ⟨0, 0, 0, 1⟩ 0 0 125) 62496) = .fin 7812 := by
  have h := C3_policy ⟨0, 0, 0, 1⟩ 0 0 125 62496 (by norm_num [bigA])
    (by norm_num) (fun _ => by norm_num [deltaCoef, bigA, bigB, bigC, aCoef,
      visMassSq])
  rw [h]
  norm_num [deltaCoef, bigA, bigB, bigC, aCoef, visMassSq]

/-- C3, counterexample: on `vis = (1, 0, 4, 5)`, `inv = (15617/4, 0)`, the
discriminant vanishes; the claim ("delta ≥ 0 → max of the two real roots")
demands the double root `-B/(2A) = 15617/3`, but the solver returns 0. -/
theorem C3_counterexample :
    deltaCoef ⟨1, 0, 4, 5⟩ (15617/4) 0 125 = 0 ∧
    getNeutrinoZ ⟨1, 0, 4, 5⟩ (15617/4) 0 125
      (mkSqrt (deltaCoef ⟨1, 0, 4, 5⟩ (15617/4) 0 125) 0) = .fin 0 ∧
    max ((-(bigB ⟨1, 0, 4, 5⟩ (15617/4) 0 125) + 0) / (2 * bigA ⟨1, 0, 4, 5⟩))
        ((-(bigB ⟨1, 0, 4, 5⟩ (15617/4) 0 125) - 0) / (2 * bigA ⟨1, 0, 4, 5⟩)) =
      15617/3 ∧ (15617/3 : ℚ) ≠ 0 := by
  have hd : deltaCoef ⟨1, 0, 4, 5⟩ (15617/4) 0 125 = 0 := by
    norm_num [deltaCoef, bigA, bigB, bigC, aCoef, visMassSq]
  refine ⟨hd, getNeutrinoZ_eval_zero _ _ _ _ _ hd, ?_, by norm_num⟩
  norm_num [bigB, bigA, aCoef, visMassSq]

/-- C8: the solver's output is always a finite value (the two `nan_to_num`
sanitizations and the vanishing indicators see to it), and in the degenerate
case `A = 0` — where the divisions produce NaNs and infinities — the result
falls back to exactly 0. -/
theorem C8_no_nan (v : Vec4) (px py hm s : ℚ) (hs : 0 ≤ s)
    (hs2 : 0 ≤ deltaCoef v px py hm → s ^ 2 = deltaCoef v px py hm) :
    (∃ q, getNeutrinoZ v px py hm (mkSqrt (deltaCoef v px py hm) s) = .fin q) ∧
    (bigA v = 0 →
      getNeutrinoZ v px py hm (mkSqrt (deltaCoef v px py hm) s) = .fin 0) := by
  refine ⟨?_, ?_⟩
  · simp only [getNeutrinoZ]
    exact indicator_sum_isFin _ _ _ _
  · intro hA0
    have hdelta : deltaCoef v px py hm = bigB v px py hm ^ 2 := by
      simp only [deltaCoef, hA0]
      ring
    rcases eq_or_ne (bigB v px py hm) 0 with hB | hB
    · exact getNeutrinoZ_eval_zero v px py hm s (by rw [hdelta, hB]; ring)
    · have hd : 0 < deltaCoef v px py hm := by
        rw [hdelta]
        positivity
      have hs2' : s ^ 2 = bigB v px py hm ^ 2 := by
        rw [hs2 (le_of_lt hd), hdelta]
      have hfact : (s - bigB v px py hm) * (s + bigB v px py hm) = 0 := by
        linear_combination hs2'
      have h2A : 2 * bigA v = 0 := by rw [hA0]; ring
      simp only [getNeutrinoZ, mkSqrt, if_neg (not_lt.mpr (le_of_lt hd)),
        if_pos hd, h2A, efAdd, efSub, efNeg]
      rcases mul_eq_zero.mp hfact with h | h
      · have hsB : s = bigB v px py hm := by linarith
        have hBpos : 0 < bigB v px py hm :=
          lt_of_le_of_ne (hsB ▸ hs) (Ne.symm hB)
        have e1 : -bigB v px py hm + s = 0 := by rw [hsB]; ring
        have e2 : -bigB v px py hm + -s = -(2 * bigB v px py hm) := by
          rw [hsB]; ring
        rw [e1, e2]
        have f1 : ¬(0 < -(2 * bigB v px py hm)) := by linarith
        have f2 : -(2 * bigB v px py hm) < 0 := by linarith
        have f3 : ¬(0 < -bigB v px py hm) := by linarith
        have f4 : -bigB v px py hm < 0 := by linarith
        have f5 : -bigB v px py hm ≠ 0 := ne_of_lt f4
        have f6 : -(2 * bigB v px py hm) ≠ 0 := ne_of_lt f2
        simp only [efDiv]
        norm_num [f1, f2, f3, f4, f5, f6, efMax, efNanToNum, efMul, efAdd]
      · have hsB : s = -bigB v px py hm := by linarith
        have hBneg : bigB v px py hm < 0 := by
          rcases lt_or_gt_of_ne hB with hlt | hgt
          · exact hlt
          · exfalso
            have : s < 0 := by rw [hsB]; linarith
            linarith
        have e1 : -bigB v px py hm + s = -(2 * bigB v px py hm) := by
          rw [hsB]; ring
        have e2 : -bigB v px py hm + -s = 0 := by rw [hsB]; ring
        rw [e1, e2]
        have f1 : 0 < -(2 * bigB v px py hm) := by linarith
        have f2 : 0 < -bigB v px py hm := by linarith
        have f3 : -bigB v px py hm ≠ 0 := ne_of_gt f2
        have f4 : -(2 * bigB v px py hm) ≠ 0 := ne_of_gt f1
        simp only [efDiv]
        norm_num [f1, f2, f3, f4, efMax, efNanToNum, efMul, efAdd]

/-- Witness for C8 at a degenerate input with `A = 0` and `B ≠ 0`: the result
is the finite 0, not NaN. -/
theorem C8_no_nan_witness :
    getNeutrinoZ ⟨0, 0, 4, 4⟩ 0 0 125
      (mkSqrt (deltaCoef ⟨0, 0, 4, 4⟩ 0 0 125) 250000) = .fin 0 := by
  have h := C8_no_nan ⟨0, 0, 4, 4⟩ 0 0 125 250000 (by norm_num)
    (fun _ => by norm_num [deltaCoef, bigA, bigB, bigC, aCoef, visMassSq])
  exact h.2 (by norm_num [bigA])

set_option maxHeartbeats 1600000 in
/-- C7, amended: for a timelike visible momentum (`vis.t > 0`,
`0 ≤ vis.mass² < h²`, `A > 0`) and a strictly positive discriminant, the root
the solver returns satisfies the mass constraint exactly: the invariant mass
squared of `vis` plus the solved massless neutrino equals the target squared.
(Both quadratic roots are genuine under these hypotheses; the original claim
additionally covers `delta = 0`, where the solver returns 0 instead of the
double root — see the counterexample.) -/
theorem C7_roundtrip (v : Vec4) (px py hm s nt : ℚ)
    (hT : 0 < v.t) (hmsq : 0 ≤ visMassSq v) (hms : visMassSq v < hm * hm)
    (hA : 0 < bigA v) (hd : 0 < deltaCoef v px py hm)
    (hs : 0 ≤ s) (hs2 : s ^ 2 = deltaCoef v px py hm)
    (hnt : 0 ≤ nt)
    (hnt2 : nt ^ 2 = px ^ 2 + py ^ 2 + posRoot v px py hm s ^ 2) :
    getNeutrinoZ v px py hm (mkSqrt (deltaCoef v px py hm) s) =
      .fin (posRoot v px py hm s) ∧
    massSqPlus v px py (posRoot v px py hm s) nt = hm * hm := by
  have hAne : bigA v ≠ 0 := ne_of_gt hA
  have h2A : 0 < 2 * bigA v := by linarith
  have h2Ane : 2 * bigA v ≠ 0 := ne_of_gt h2A
  constructor
  · rw [getNeutrinoZ_eval_pos v px py hm s hAne hd]
    congr 1
    rw [max_eq_left, posRoot]
    exact (div_le_div_iff_of_pos_right h2A).mpr (by linarith)
  · -- the defining equation of the returned root, times 2A
    have hz2p : 2 * bigA v * posRoot v px py hm s = -(bigB v px py hm) + s := by
      rw [posRoot]
      field_simp
    -- move to raw components plus the atom `a`
    obtain ⟨a, haq⟩ : ∃ r, aCoef v px py hm = r := ⟨_, rfl⟩
    obtain ⟨z2, hzq⟩ : ∃ r, posRoot v px py hm s = r := ⟨_, rfl⟩
    rw [hzq] at hnt2 hz2p ⊢
    have haraw : a = hm * hm -
        (v.t * v.t - v.x * v.x - v.y * v.y - v.z * v.z) +
        2 * v.x * px + 2 * v.y * py := by
      rw [← haq]
      rfl
    have hAr : 0 < 4 * (v.t * v.t - v.z * v.z) := hA
    have hz2r : 2 * (4 * (v.t * v.t - v.z * v.z)) * z2 =
        -(-4 * a * v.z) + s := by
      rw [← haq]
      exact hz2p
    have hs2r : s ^ 2 = (-4 * a * v.z) * (-4 * a * v.z) -
        4 * (4 * (v.t * v.t - v.z * v.z)) *
          (4 * v.t * v.t * (px * px + py * py) - a * a) := by
      rw [← haq]
      exact hs2
    have hmsr : v.t * v.t - v.x * v.x - v.y * v.y - v.z * v.z < hm * hm := hms
    have hmsqr : 0 ≤ v.t * v.t - v.x * v.x - v.y * v.y - v.z * v.z := hmsq
    have hspos : 0 < s ^ 2 := hs2 ▸ hd
    -- the root satisfies the quadratic (derived from hz2r and hs2r, times 16(t^2-z^2))
    have hquad : 4 * (v.t * v.t - v.z * v.z) * z2 ^ 2 + (-4 * a * v.z) * z2 +
        (4 * v.t * v.t * (px * px + py * py) - a * a) = 0 := by
      have hq4 : 16 * (v.t * v.t - v.z * v.z) *
          (4 * (v.t * v.t - v.z * v.z) * z2 ^ 2 + (-4 * a * v.z) * z2 +
            (4 * v.t * v.t * (px * px + py * py) - a * a)) = 0 := by
        linear_combination (2 * (4 * (v.t * v.t - v.z * v.z)) * z2 +
          (-4 * a * v.z) + s) * hz2r + hs2r
      rcases mul_eq_zero.mp hq4 with h | h
      · exact absurd h (ne_of_gt (by linarith))
      · exact h
    -- discriminant factorization (a ring identity)
    have hdfac : s ^ 2 = 16 * (v.t * v.t) *
        (a * a - 4 * (v.t * v.t - v.z * v.z) * (px * px + py * py)) := by
      linear_combination hs2r
    clear hs2r hz2p hs2 hd hms hmsq hA hAne haq hzq
    -- strict domination of A * rho^2 by a^2
    have haA : 4 * (v.t * v.t - v.z * v.z) * (px * px + py * py) < a * a := by
      nlinarith [mul_pos hT hT, hspos]
    have hrho2 : (0:ℚ) ≤ px * px + py * py :=
      add_nonneg (mul_self_nonneg px) (mul_self_nonneg py)
    -- bound on s before discarding the discriminant factorization
    have hsbound : s * s ≤ 16 * (v.t * v.t) * (a * a) := by
      nlinarith [mul_nonneg (mul_self_nonneg v.t)
        (mul_nonneg (le_of_lt hAr) hrho2)]
    clear hdfac hspos
    -- Cauchy-Schwarz, in raw components
    have hCSraw : (2 * v.x * px + 2 * v.y * py) ^ 2 ≤
        4 * (v.t * v.t - v.z * v.z) * (px * px + py * py) := by
      nlinarith [sq_nonneg (v.x * py - v.y * px), mul_nonneg hmsqr hrho2]
    have hac : a - (hm * hm -
        (v.t * v.t - v.x * v.x - v.y * v.y - v.z * v.z)) =
        2 * v.x * px + 2 * v.y * py := by
      rw [haraw]
      ring
    have hc : 0 < hm * hm -
        (v.t * v.t - v.x * v.x - v.y * v.y - v.z * v.z) := by linarith
    have hlt : (a - (hm * hm -
        (v.t * v.t - v.x * v.x - v.y * v.y - v.z * v.z))) ^ 2 < a * a := by
      rw [hac]
      exact lt_of_le_of_lt hCSraw haA
    clear hCSraw hac haA
    have hc2ac : (hm * hm -
        (v.t * v.t - v.x * v.x - v.y * v.y - v.z * v.z)) *
        (hm * hm - (v.t * v.t - v.x * v.x - v.y * v.y - v.z * v.z)) <
        2 * a * (hm * hm -
          (v.t * v.t - v.x * v.x - v.y * v.y - v.z * v.z)) := by
      nlinarith [hlt]
    -- a is positive
    have ha_pos : 0 < a := by
      by_contra hcon
      push_neg at hcon
      nlinarith [mul_nonneg (neg_nonneg.mpr hcon) (le_of_lt hc),
        mul_pos hc hc]
    clear hlt hc2ac hc hmsr
    -- s is bounded by 4*t*a
    have h4ta : 0 < 4 * v.t * a := by nlinarith [mul_pos hT ha_pos]
    have hsle : s ≤ 4 * v.t * a := by
      by_contra hcon
      push_neg at hcon
      nlinarith [mul_pos (sub_pos.mpr hcon)
        (by linarith : (0:ℚ) < s + 4 * v.t * a)]
    clear hsbound
    -- |v.z| < v.t
    have hzt1 : 0 < v.t + v.z := by
      by_contra hcon
      push_neg at hcon
      nlinarith [mul_nonneg (by linarith : (0:ℚ) ≤ -(v.t + v.z))
        (by linarith : (0:ℚ) ≤ v.t - v.z)]
    -- the numerator of g(z2) is nonnegative
    have hnum : 0 ≤ 4 * a * (v.t * v.t) + s * v.z := by
      nlinarith [mul_nonneg hs (le_of_lt hzt1),
        mul_nonneg (le_of_lt hT) (by linarith : (0:ℚ) ≤ 4 * v.t * a - s)]
    -- g(z2) * A equals that numerator
    have hgid : (a + 2 * v.z * z2) * (4 * (v.t * v.t - v.z * v.z)) =
        4 * a * (v.t * v.t) + s * v.z := by
      linear_combination v.z * hz2r
    have hg : 0 ≤ a + 2 * v.z * z2 := by
      by_contra hcon
      push_neg at hcon
      nlinarith [mul_pos (neg_pos.mpr hcon) hAr]
    clear hgid hnum hzt1 hsle h4ta hz2r
    -- energies squared agree
    have hsq : (2 * v.t * nt) ^ 2 = (a + 2 * v.z * z2) ^ 2 := by
      linear_combination (4 * (v.t * v.t)) * hnt2 + hquad
    have hfact2 : (2 * v.t * nt - (a + 2 * v.z * z2)) *
        (2 * v.t * nt + (a + 2 * v.z * z2)) = 0 := by
      linear_combination hsq
    have hfin : 2 * v.t * nt = a + 2 * v.z * z2 := by
      rcases mul_eq_zero.mp hfact2 with h | h
      · linarith
      · have h1 : 2 * v.t * nt = 0 := by
          nlinarith [mul_nonneg (le_of_lt hT) hnt]
        linarith
    -- conclude the mass identity
    simp only [massSqPlus]
    rw [haraw] at hfin
    linear_combination hfin + hnt2

/-- Witness for C7 (amended): a concrete timelike input with a positive
discriminant where the solver's root `31218/37` reproduces the 125 target
mass exactly. -/
theorem C7_roundtrip_witness :
    getNeutrinoZ ⟨0, 0, -3, 5⟩ (46827/74) 0 125
      (mkSqrt (deltaCoef ⟨0, 0, -3, 5⟩ (46827/74) 0 125) (10926300/37)) =
      .fin (posRoot ⟨0, 0, -3, 5⟩ (46827/74) 0 125 (10926300/37)) ∧
    massSqPlus ⟨0, 0, -3, 5⟩ (46827/74) 0
      (posRoot ⟨0, 0, -3, 5⟩ (46827/74) 0 125 (10926300/37)) (78045/74) =
      125 * 125 ∧
    posRoot ⟨0, 0, -3, 5⟩ (46827/74) 0 125 (10926300/37) = 31218/37 := by
  have h := C7_roundtrip ⟨0, 0, -3, 5⟩ (46827/74) 0 125 (10926300/37)
    (78045/74)
    (by norm_num) (by norm_num [visMassSq]) (by norm_num [visMassSq])
    (by norm_num [bigA])
    (by norm_num [deltaCoef, bigA, bigB, bigC, aCoef, visMassSq])
    (by norm_num)
    (by norm_num [deltaCoef, bigA, bigB, bigC, aCoef, visMassSq])
    (by norm_num)
    (by norm_num [posRoot, bigA, bigB, aCoef, visMassSq])
  exact ⟨h.1, h.2, by norm_num [posRoot, bigA, bigB, aCoef, visMassSq]⟩

/-- C7, counterexample: on `vis = (1, 0, 4, 5)`, `inv = (15617/4, 0)` a
genuine massless-neutrino solution exists (`z = 15617/3`, energy `78085/12`,
reconstructing the 125 target exactly), so "the quadratic constraint has a
real solution"; yet the discriminant is 0, the solver returns `z = 0`, and the
reconstructed squared mass 31242 exceeds `(125 + 1/1000)^2` — far outside the
claimed 1e-3 tolerance. -/
theorem C7_counterexample :
    ((0:ℚ) ≤ 78085/12 ∧
      (78085/12 : ℚ) ^ 2 = (15617/4) ^ 2 + 0 ^ 2 + (15617/3) ^ 2 ∧
      massSqPlus ⟨1, 0, 4, 5⟩ (15617/4) 0 (15617/3) (78085/12) = 125 * 125) ∧
    getNeutrinoZ ⟨1, 0, 4, 5⟩ (15617/4) 0 125
      (mkSqrt (deltaCoef ⟨1, 0, 4, 5⟩ (15617/4) 0 125) 0) = .fin 0 ∧
    ((0:ℚ) ≤ 15617/4 ∧
      (15617/4 : ℚ) ^ 2 = (15617/4) ^ 2 + 0 ^ 2 + 0 ^ 2 ∧
      massSqPlus ⟨1, 0, 4, 5⟩ (15617/4) 0 0 (15617/4) = 31242) ∧
    ((125:ℚ) + 1/1000) ^ 2 < 31242 := by
  refine ⟨⟨by norm_num, by norm_num, by norm_num [massSqPlus]⟩, ?_,
    ⟨by norm_num, by norm_num, by norm_num [massSqPlus]⟩, by norm_num⟩
  exact getNeutrinoZ_eval_zero _ _ _ _ _
    (by norm_num [deltaCoef, bigA, bigB, bigC, aCoef, visMassSq])

/-- Witness for C2 (amended) at the event `evC6`: the mask is true and indeed
a closest Higgs within the radius exists. -/
theorem C2_mask_rule_witness :
    ∃ h ∈ higgsSel evC6,
      (∀ h2 ∈ higgsSel evC6,
        deltaR2 evC6.fatjet h ≤ deltaR2 evC6.fatjet h2) ∧
      deltaR2 evC6.fatjet h < jetDR2 := by
  refine (C2_mask_rule evC6).mp ?_
  norm_num [matchedHiggsMask, matchedHiggs, higgsSel, evC6, higgsC6, w1C6,
    w2C6, muC6, nuC6, q1C6, q2C6, GenPart.pdgId, GenPart.pt, GenPart.eta,
    GenPart.phi, GenPart.mass, GenPart.fromHardProcess, GenPart.isLastCopy,
    GenPart.children, getPidMask, hasGenFlags, argminFirst, deltaR2, jetDR2,
    JET_DR, HIGGS_PDGID]
